import Mathlib

/-!
Shallow embedding of the closure upvar-inference pass in
`src/librustc_typeck/check/upvar.rs`: per-path capture tracking, borrow-kind
escalation, closure-kind (invocation class) inference and the driver
`analyze_closure`.  Identifiers (variables, closures, field names, spans,
regions) are modelled as `Nat`; maps are association lists with
replace-on-insert semantics mirroring `FxHashMap`.
-/

/-- `ty::BorrowKind`: the lattice `ImmBorrow < UniqueImmBorrow < MutBorrow`
(spec names: Shared < UniqueShared < Exclusive). -/
inductive BorrowKind : Type where
  | immBorrow
  | uniqueImmBorrow
  | mutBorrow
  deriving DecidableEq, Repr

/-- `ty::ClosureKind`: the lattice `Fn < FnMut < FnOnce`
(spec names: CallShared < CallMut < CallOnce); `LATTICE_BOTTOM` is `Fn`. -/
inductive ClosureKind : Type where
  | fn
  | fnMut
  | fnOnce
  deriving DecidableEq, Repr

/-- `hir::CaptureClause`: the closure's declared capture intent. -/
inductive CaptureClause : Type where
  | byValue
  | byRef
  deriving DecidableEq, Repr

/-- `ty::UpvarId`: a captured variable (its HIR id) paired with the closure
doing the capturing (`closure_expr_id`). -/
structure UpvarId : Type where
  var_path : Nat
  closure_expr_id : Nat
  deriving DecidableEq, Repr

/-- `ty::UpvarBorrow`: a borrow kind together with the opaque region
(lifetime placeholder) allocated by `next_region_var`. -/
structure UpvarBorrow : Type where
  kind : BorrowKind
  region : Nat
  deriving DecidableEq, Repr

/-- `ty::UpvarCapture`: how an upvar (or one of its paths) is captured. -/
inductive UpvarCapture : Type where
  | byValue
  | byRef (b : UpvarBorrow)
  deriving DecidableEq, Repr

/-- `ty::CapturePathComponent`: one step of a capture path. -/
inductive CapturePathComponent : Type where
  | field (name : Nat)
  | downcast (variant : Nat)
  | deref
  deriving DecidableEq, Repr

/-- `ty::CapturePath`: components in root-to-leaf order; `[]` is the
variable itself. -/
abbrev CapturePath : Type := List CapturePathComponent

/-- `mc::Note`: annotation on a memory-categorization node; `upvarRef` marks
the captured variable's own implicit dereference, `closureEnv` the
closure-environment dereference, `index` an indexing dereference. -/
inductive Note : Type where
  | none
  | upvarRef (uid : UpvarId)
  | closureEnv (uid : UpvarId)
  | index
  deriving DecidableEq, Repr

/-- `mc::PointerKind` restricted to what `upvar.rs` distinguishes:
`Unique` (owned `Box`), `BorrowedPtr(..)` and `UnsafePtr(..)`
(the raw-pointer case, called `rawPtr` here). -/
inductive PtrKind : Type where
  | uniquePtr
  | borrowedPtr
  | rawPtr
  deriving DecidableEq, Repr

/-- `mc::InteriorKind`: a named field or an indexed element. -/
inductive InteriorKind : Type where
  | interiorField (name : Nat)
  | interiorElement
  deriving DecidableEq, Repr

/-- `mc::cmt_`: the memory categorization of an expression, flattened so that
each constructor is one `Categorization` variant carrying the node's `note`
and `span`.  `Rvalue`'s optional inner cmt is split into two constructors. -/
inductive Cmt : Type where
  | rvalueNone (note : Note) (span : Nat)
  | rvalueSome (note : Note) (span : Nat) (inner : Cmt)
  | staticItem (note : Note) (span : Nat)
  | threadLocal (note : Note) (span : Nat)
  | upvar (note : Note) (span : Nat) (uid : UpvarId)
  | localVar (note : Note) (span : Nat) (id : Nat)
  | deref (note : Note) (span : Nat) (base : Cmt) (pk : PtrKind)
  | interior (note : Note) (span : Nat) (base : Cmt) (ik : InteriorKind)
  | downcast (note : Note) (span : Nat) (base : Cmt) (variant : Nat)
  deriving DecidableEq, Repr

/-- The `note` field of a cmt node. -/
def Cmt.note : Cmt → Note
  | .rvalueNone n _ => n
  | .rvalueSome n _ _ => n
  | .staticItem n _ => n
  | .threadLocal n _ => n
  | .upvar n _ _ => n
  | .localVar n _ _ => n
  | .deref n _ _ _ => n
  | .interior n _ _ _ => n
  | .downcast n _ _ _ => n

/-- The `span` field of a cmt node. -/
def Cmt.span : Cmt → Nat
  | .rvalueNone _ sp => sp
  | .rvalueSome _ sp _ => sp
  | .staticItem _ sp => sp
  | .threadLocal _ sp => sp
  | .upvar _ sp _ => sp
  | .localVar _ sp _ => sp
  | .deref _ sp _ _ => sp
  | .interior _ sp _ _ => sp
  | .downcast _ sp _ _ => sp

/-- Modelled from the spec: `mem_categorization::cmt_::guarantor` is not under
`src/`; per the spec's glossary the guarantor is the "enclosing location whose
continued validity/exclusivity a given use depends on (e.g., for a move
reached through a reference, the reference itself)": interior, downcast and
owned-unique-dereference nodes defer to their base, every other node (rvalue,
static, thread-local, local, upvar, borrowed- or raw-pointer dereference) is
its own guarantor. -/
def Cmt.guarantor : Cmt → Cmt
  | c@(.rvalueNone _ _) => c
  | c@(.rvalueSome _ _ _) => c
  | c@(.staticItem _ _) => c
  | c@(.threadLocal _ _) => c
  | c@(.upvar _ _ _) => c
  | c@(.localVar _ _ _) => c
  | c@(.deref _ _ _ .borrowedPtr) => c
  | c@(.deref _ _ _ .rawPtr) => c
  | .deref _ _ base .uniquePtr => base.guarantor
  | .interior _ _ base _ => base.guarantor
  | .downcast _ _ base _ => base.guarantor

/-- Association-list lookup (first match), mirroring `FxHashMap::get`. -/
def alLookup {α β : Type} [DecidableEq α] : List (α × β) → α → Option β
  | [], _ => Option.none
  | e :: rest, k => if e.1 = k then some e.2 else alLookup rest k

/-- Association-list insert with replacement, mirroring `FxHashMap::insert`. -/
def alInsert {α β : Type} [DecidableEq α] : List (α × β) → α → β → List (α × β)
  | [], k, v => [(k, v)]
  | e :: rest, k, v => if e.1 = k then (k, v) :: rest else e :: alInsert rest k v

/-- `InferBorrowKind::capture_path_by_cmt_inner`: walk a location chain from
leaf toward root accumulating capture-path components; terminate with the
upvar id at a node whose base is annotated as the upvar's own reference (or
the closure environment), discard the accumulator at indexing and rvalue
nodes, fail at local/static/thread-local roots. -/
def capture_path_by_cmt_inner (acc : List CapturePathComponent) (cmt : Cmt) :
    Option UpvarId × List CapturePathComponent :=
  match cmt with
  | .interior _ _ base (.interiorField name) =>
      capture_path_by_cmt_inner (acc ++ [.field name]) base
  | .deref _ _ base _ =>
      match base.note with
      | .closureEnv uid => (some uid, acc)
      | .upvarRef uid => (some uid, acc)
      | .none => capture_path_by_cmt_inner (acc ++ [.deref]) base
      | .index => capture_path_by_cmt_inner [] base
  | .upvar _ _ uid => (some uid, acc)
  | .interior _ _ base .interiorElement => capture_path_by_cmt_inner [] base
  | .rvalueSome _ _ inner => capture_path_by_cmt_inner [] inner
  | .rvalueNone _ _ => (Option.none, [])
  | .downcast _ _ base variant =>
      capture_path_by_cmt_inner (acc ++ [.downcast variant]) base
  | .threadLocal _ _ => (Option.none, [])
  | .staticItem _ _ => (Option.none, [])
  | .localVar _ _ _ => (Option.none, [])

/-- `InferBorrowKind::capture_path_by_cmt`: run the inner walk with an empty
accumulator and reverse the components into root-to-leaf order. -/
def capture_path_by_cmt (cmt : Cmt) : Option UpvarId × CapturePath :=
  let r := capture_path_by_cmt_inner [] cmt
  (r.1, r.2.reverse)

/-- Canonical chain for referencing a by-ref captured variable, as produced by
the external memory categorizer (`cat_upvar`).  Modelled from the spec and the
expected dumps in `src/test/ui/closures/closure-partial-captures.rs`: the
variable's own implicit dereference (note `upvarRef`) over the closure
environment dereference (note `closureEnv`) over the raw upvar node. -/
def upvarRefCmt (uid : UpvarId) (sp : Nat) : Cmt :=
  .deref (.upvarRef uid) sp (.deref (.closureEnv uid) sp (.upvar .none sp uid) .borrowedPtr)
    .borrowedPtr

/-- The per-closure delegate state `struct InferBorrowKind`, together with the
pieces of shared context its methods read: the snapshot of
`fcx.tables.upvar_capture_map` (seeded before the walk and read by
`tables.upvar_capture`) and the region-variable counter backing
`fcx.next_region_var`. -/
structure InferBorrowKind : Type where
  closure_def_id : Nat
  current_closure_kind : ClosureKind
  current_origin : Option (Nat × Nat)
  adjust_upvar_captures : List (UpvarId × UpvarCapture)
  span : Nat
  capture_clause : CaptureClause
  upvar_captures : List (UpvarId × List (CapturePath × UpvarCapture))
  fcx_upvar_capture_map : List (UpvarId × UpvarCapture)
  next_region : Nat
  deriving DecidableEq, Repr

/-- `tcx.hir().name_by_hir_id`: the variable's name, modelled as an opaque
function of its HIR id. -/
def var_name (var_hir_id : Nat) : Nat := var_hir_id

/-- The escalation test shared by the borrow-kind matches in
`adjust_upvar_borrow_kind`: the arms that "Take RHS" are exactly
`(ImmBorrow, UniqueImmBorrow)`, `(ImmBorrow, MutBorrow)` and
`(UniqueImmBorrow, MutBorrow)`. -/
def borrowKindEscalates : BorrowKind → BorrowKind → Bool
  | .immBorrow, .uniqueImmBorrow => true
  | .immBorrow, .mutBorrow => true
  | .uniqueImmBorrow, .mutBorrow => true
  | _, _ => false

/-- One escalation step on a capture entry, as performed (twice, with
identical matches) in `adjust_upvar_borrow_kind`: a `ByValue` entry is already
strongest; a `ByRef` entry takes the requested kind exactly in the
"Take RHS" arms, keeping its region. -/
def strengthenCapture (c : UpvarCapture) (kind : BorrowKind) : UpvarCapture :=
  match c with
  | .byValue => .byValue
  | .byRef ub => if borrowKindEscalates ub.kind kind then .byRef ⟨kind, ub.region⟩ else .byRef ub

/-- `InferBorrowKind::adjust_closure_kind`: escalate the closure kind of the
closure currently being inferred along `Fn < FnMut < FnOnce`, recording the
origin (span, variable name) whenever the kind strictly increases. -/
def adjust_closure_kind (s : InferBorrowKind) (closure_id : Nat) (new_kind : ClosureKind)
    (upvar_span : Nat) (vname : Nat) : InferBorrowKind :=
  if closure_id ≠ s.closure_def_id then s
  else
    match s.current_closure_kind, new_kind with
    | .fn, .fn | .fnMut, .fn | .fnMut, .fnMut | .fnOnce, _ => s
    | .fn, .fnMut | .fn, .fnOnce | .fnMut, .fnOnce =>
        { s with current_closure_kind := new_kind, current_origin := some (upvar_span, vname) }

/-- `InferBorrowKind::adjust_upvar_borrow_kind`: escalate both the legacy
whole-variable capture (`adjust_upvar_captures`, falling back to the seeded
`tables.upvar_capture` entry, whose absence is a panic) and the per-path
entry for the path resolved from `cmt` (seeding it first if absent, as
`entry(path).or_insert_with`).  `none` models the `bug!`/`assert!`/`unwrap`
failures: no resolved upvar, a resolved upvar different from `upvar_id`, or a
missing `upvar_captures` entry. -/
def adjust_upvar_borrow_kind (s : InferBorrowKind) (upvar_id : UpvarId) (kind : BorrowKind)
    (cmt : Cmt) : Option InferBorrowKind :=
  let found :=
    match alLookup s.adjust_upvar_captures upvar_id with
    | some c => some c
    | Option.none => alLookup s.fcx_upvar_capture_map upvar_id
  match found with
  | Option.none => Option.none
  | some upvar_capture =>
    let s1 :=
      match upvar_capture with
      | .byValue => s
      | .byRef ub =>
          if borrowKindEscalates ub.kind kind then
            { s with adjust_upvar_captures :=
                alInsert s.adjust_upvar_captures upvar_id (.byRef ⟨kind, ub.region⟩) }
          else s
    match capture_path_by_cmt cmt with
    | (some cmt_upvar_id, path) =>
        if cmt_upvar_id = upvar_id then
          match alLookup s1.upvar_captures upvar_id with
          | Option.none => Option.none
          | some paths_for_upvar =>
            match alLookup paths_for_upvar path with
            | some capture =>
                let pm := alInsert paths_for_upvar path (strengthenCapture capture kind)
                some { s1 with upvar_captures := alInsert s1.upvar_captures upvar_id pm }
            | Option.none =>
                match s1.capture_clause with
                | .byValue =>
                    let pm := alInsert paths_for_upvar path (strengthenCapture .byValue kind)
                    some { s1 with upvar_captures := alInsert s1.upvar_captures upvar_id pm }
                | .byRef =>
                    let seed : UpvarCapture := .byRef ⟨.immBorrow, s1.next_region⟩
                    let pm := alInsert paths_for_upvar path (strengthenCapture seed kind)
                    some { s1 with
                      upvar_captures := alInsert s1.upvar_captures upvar_id pm,
                      next_region := s1.next_region + 1 }
        else Option.none
    | (Option.none, _) => Option.none

/-- `InferBorrowKind::try_adjust_upvar_deref`: at a borrowed-pointer
dereference, a `upvarRef` note escalates the upvar's borrow kind and forces at
least `FnMut`; a `closureEnv` note forces at least `FnMut`; otherwise the
caller must keep walking (`false`).  The `assert!` that the requested kind is
never `ImmBorrow` is modelled as `none`. -/
def try_adjust_upvar_deref (s : InferBorrowKind) (cmt : Cmt) (borrow_kind : BorrowKind) :
    Option (InferBorrowKind × Bool) :=
  match borrow_kind with
  | .immBorrow => Option.none
  | _ =>
    match cmt.note with
    | .upvarRef uid =>
        match adjust_upvar_borrow_kind s uid borrow_kind cmt with
        | Option.none => Option.none
        | some s1 =>
            some (adjust_closure_kind s1 uid.closure_expr_id .fnMut cmt.span
              (var_name uid.var_path), true)
    | .closureEnv uid =>
        some (adjust_closure_kind s uid.closure_expr_id .fnMut cmt.span
          (var_name uid.var_path), true)
    | .index => some (s, false)
    | .none => some (s, false)

/-- `InferBorrowKind::adjust_upvar_borrow_kind_for_unique`: walk toward the
base through interior/downcast/owned-unique nodes; at a borrowed-pointer
dereference either the note handles it or the pointer's own base must be
unique; raw-pointer dereferences and all roots terminate with no effect. -/
def adjust_upvar_borrow_kind_for_unique (s : InferBorrowKind) (cmt : Cmt) :
    Option InferBorrowKind :=
  match cmt with
  | .deref _ _ base .uniquePtr | .interior _ _ base _ | .downcast _ _ base _ =>
      adjust_upvar_borrow_kind_for_unique s base
  | .deref note sp base .borrowedPtr =>
      match try_adjust_upvar_deref s (.deref note sp base .borrowedPtr) .uniqueImmBorrow with
      | Option.none => Option.none
      | some (s1, true) => some s1
      | some (s1, false) => adjust_upvar_borrow_kind_for_unique s1 base
  | .deref _ _ _ .rawPtr | .staticItem _ _ | .threadLocal _ _ | .rvalueNone _ _
  | .rvalueSome _ _ _ | .localVar _ _ _ | .upvar _ _ _ => some s

/-- `InferBorrowKind::adjust_upvar_borrow_kind_for_mut`: like the unique walk
but requesting `MutBorrow`; when the note does not handle a borrowed-pointer
dereference, the pointer's base is required to be unique (not mutable). -/
def adjust_upvar_borrow_kind_for_mut (s : InferBorrowKind) (cmt : Cmt) :
    Option InferBorrowKind :=
  match cmt with
  | .deref _ _ base .uniquePtr | .interior _ _ base _ | .downcast _ _ base _ =>
      adjust_upvar_borrow_kind_for_mut s base
  | .deref note sp base .borrowedPtr =>
      match try_adjust_upvar_deref s (.deref note sp base .borrowedPtr) .mutBorrow with
      | Option.none => Option.none
      | some (s1, true) => some s1
      | some (s1, false) => adjust_upvar_borrow_kind_for_unique s1 base
  | .deref _ _ _ .rawPtr | .staticItem _ _ | .threadLocal _ _ | .rvalueNone _ _
  | .rvalueSome _ _ _ | .localVar _ _ _ | .upvar _ _ _ => some s

/-- `euv::ConsumeMode`. -/
inductive ConsumeMode : Type where
  | copy
  | move
  deriving DecidableEq, Repr

/-- `InferBorrowKind::adjust_upvar_borrow_kind_for_consume`: only moves
matter; if the guarantor of the consumed location is a borrowed-pointer
dereference noted `upvarRef`, force `FnOnce`, set the whole-variable capture
and the resolved path's entry to `ByValue`; a `closureEnv` note still forces
`FnOnce`. -/
def adjust_upvar_borrow_kind_for_consume (s : InferBorrowKind) (cmt : Cmt)
    (mode : ConsumeMode) : Option InferBorrowKind :=
  match mode with
  | .copy => some s
  | .move =>
    match cmt.guarantor with
    | .deref gnote gsp _ .borrowedPtr =>
      match gnote with
      | .upvarRef uid =>
          let s1 := adjust_closure_kind s uid.closure_expr_id .fnOnce gsp
            (var_name uid.var_path)
          let s2 :=
            { s1 with adjust_upvar_captures := alInsert s1.adjust_upvar_captures uid .byValue }
          match capture_path_by_cmt cmt with
          | (some cmt_upvar_id, path) =>
              if cmt_upvar_id = uid then
                match alLookup s2.upvar_captures uid with
                | Option.none => Option.none
                | some paths_for_upvar =>
                    let pm := alInsert paths_for_upvar path .byValue
                    some { s2 with upvar_captures := alInsert s2.upvar_captures uid pm }
              else Option.none
          | (Option.none, _) => Option.none
      | .closureEnv uid =>
          some (adjust_closure_kind s uid.closure_expr_id .fnOnce gsp (var_name uid.var_path))
      | .index => some s
      | .none => some s
    | _ => some s

/-- `InferBorrowKind::initialize_capture_path` (named `init_capture_path`
here): ensure the resolved (upvar, path) pair has an entry, seeding the first
observation with the weakest mode consistent with the capture clause
(`ByValue`, or `ByRef ImmBorrow` with a fresh region); chains that resolve to
no upvar change nothing. -/
def init_capture_path (s : InferBorrowKind) (cmt : Cmt) : InferBorrowKind :=
  match capture_path_by_cmt cmt with
  | (some upvar_id, path) =>
      let paths_for_upvar := (alLookup s.upvar_captures upvar_id).getD []
      match alLookup paths_for_upvar path with
      | some _ =>
          { s with upvar_captures := alInsert s.upvar_captures upvar_id paths_for_upvar }
      | Option.none =>
          match s.capture_clause with
          | .byValue =>
              let pm := alInsert paths_for_upvar path .byValue
              { s with upvar_captures := alInsert s.upvar_captures upvar_id pm }
          | .byRef =>
              let pm := alInsert paths_for_upvar path (.byRef ⟨.immBorrow, s.next_region⟩)
              { s with
                upvar_captures := alInsert s.upvar_captures upvar_id pm,
                next_region := s.next_region + 1 }
  | (Option.none, _) => s

/-- One callback of the `euv::Delegate` protocol, as driven by the external
expression-use visitor over the closure body. -/
inductive Event : Type where
  | consume (cmt : Cmt) (mode : ConsumeMode)
  | consumePat (cmt : Cmt) (mode : ConsumeMode)
  | borrow (cmt : Cmt) (bk : BorrowKind)
  | mutate (cmt : Cmt)
  deriving DecidableEq, Repr

/-- The `euv::Delegate` impl for `InferBorrowKind`: each callback first runs
`init_capture_path`, then consumes escalate via the consume walk, borrows via
the unique/mut walks according to the requested kind (`ImmBorrow` borrows need
no adjustment), and mutations via the mut walk. -/
def processEvent (s : InferBorrowKind) : Event → Option InferBorrowKind
  | .consume cmt mode => adjust_upvar_borrow_kind_for_consume (init_capture_path s cmt) cmt mode
  | .consumePat cmt mode =>
      adjust_upvar_borrow_kind_for_consume (init_capture_path s cmt) cmt mode
  | .borrow cmt bk =>
      let s1 := init_capture_path s cmt
      match bk with
      | .immBorrow => some s1
      | .uniqueImmBorrow => adjust_upvar_borrow_kind_for_unique s1 cmt
      | .mutBorrow => adjust_upvar_borrow_kind_for_mut s1 cmt
  | .mutate cmt => adjust_upvar_borrow_kind_for_mut (init_capture_path s cmt) cmt

/-- The visitor-driven walk over the closure body: the delegate callbacks in
the order the use-visitor reports them. -/
def processEvents (s : InferBorrowKind) (events : List Event) : Option InferBorrowKind :=
  events.foldlM processEvent s

/-- The mutability of a reference type. -/
inductive Mutability : Type where
  | immutable
  | mutable
  deriving DecidableEq, Repr

/-- The slice of the type vocabulary `final_upvar_tys` produces: a captured
variable's own static type (opaque, indexed by its HIR id) or a reference
type over a region. -/
inductive RTy : Type where
  | var (hir_id : Nat)
  | ref (region : Nat) (mutbl : Mutability) (inner : RTy)
  deriving DecidableEq, Repr

/-- Modelled from the spec: `ty::BorrowKind::to_mutbl_lossy` is not under
`src/`; per the spec, `Shared`/`UniqueShared` yield a read-only reference and
`Exclusive` a read-write one. -/
def to_mutbl_lossy : BorrowKind → Mutability
  | .immBorrow => .immutable
  | .uniqueImmBorrow => .immutable
  | .mutBorrow => .mutable

/-- The slices of `fcx.tables` this pass reads and writes:
`upvar_capture_map` (legacy whole-variable modes), `upvar_list` (seeded
upvars per closure), `upvar_captures` (per-path modes),
`closure_kind_origins`, and the closure kind unified into the closure's kind
type variable by `demand_eqtype` (recorded here as `inferred_kinds`). -/
structure Tables : Type where
  upvar_capture_map : List (UpvarId × UpvarCapture)
  upvar_list : List (Nat × List UpvarId)
  upvar_captures : List (UpvarId × List (CapturePath × UpvarCapture))
  closure_kind_origins : List (Nat × (Nat × Nat))
  inferred_kinds : List (Nat × ClosureKind)
  deriving DecidableEq, Repr

/-- The function context: the shared tables plus the region-variable counter
backing `next_region_var`. -/
structure Fcx : Type where
  tables : Tables
  next_region : Nat
  deriving DecidableEq, Repr

/-- `FnCtxt::final_upvar_tys`: for each freevar of the closure, look up its
(whole-variable) capture — a missing entry is a panic — and produce the
variable's own type for `ByValue` or a reference over the recorded region
with lossy mutability for `ByRef`. -/
def final_upvar_tys (closure_def_id : Nat) (freevars : List Nat) (node_ty : Nat → RTy)
    (upvar_capture_map : List (UpvarId × UpvarCapture)) : Option (List RTy) :=
  match freevars with
  | [] => some []
  | v :: rest =>
    let fieldTy :=
      match alLookup upvar_capture_map ⟨v, closure_def_id⟩ with
      | Option.none => Option.none
      | some .byValue => some (node_ty v)
      | some (.byRef borrow) =>
          some (.ref borrow.region (to_mutbl_lossy borrow.kind) (node_ty v))
    match fieldTy, final_upvar_tys closure_def_id rest node_ty upvar_capture_map with
    | some t, some tys => some (t :: tys)
    | _, _ => Option.none

/-- `FxHashMap::extend`: insert every entry of `adds` into `m`, replacing. -/
def extendMap {α β : Type} [DecidableEq α] (m : List (α × β)) (adds : List (α × β)) :
    List (α × β) :=
  adds.foldl (fun acc e => alInsert acc e.1 e.2) m

/-- The kind of the closure expression's own type in `analyze_closure`:
`ty::Closure`, `ty::Generator`, the prior-error placeholder `ty::Error`, or
anything else (a `span_bug!`). -/
inductive ClosureTyKind : Type where
  | closure (def_id : Nat)
  | generator (def_id : Nat)
  | error
  | other
  deriving DecidableEq, Repr

/-- The seeding loop of `analyze_closure` over `with_freevars`: give every
freevar its whole-variable seed in `tables.upvar_capture_map` (`ByValue`, or
`ByRef ImmBorrow` with a fresh region) and collect the seeded `UpvarId`s. -/
def seedUpvars (fcx : Fcx) (def_id : Nat) (_span : Nat) (capture_clause : CaptureClause)
    (freevars : List Nat) : Fcx × List UpvarId :=
  freevars.foldl
    (fun acc v =>
      let uid : UpvarId := ⟨v, def_id⟩
      let seeded :=
        match capture_clause with
        | .byValue =>
            let m := alInsert acc.1.tables.upvar_capture_map uid .byValue
            ({ acc.1 with tables := { acc.1.tables with upvar_capture_map := m } } : Fcx)
        | .byRef =>
            let cap : UpvarCapture := .byRef ⟨.immBorrow, acc.1.next_region⟩
            let m := alInsert acc.1.tables.upvar_capture_map uid cap
            ({ tables := { acc.1.tables with upvar_capture_map := m },
               next_region := acc.1.next_region + 1 } : Fcx)
      (seeded, acc.2 ++ [uid]))
    (fcx, [])

/-- The body of `FnCtxt::analyze_closure` after the closure type has been
matched: seed the freevars, record the seeded list in `tables.upvar_list` (if
non-empty), run the delegate over the visitor-reported uses, unify the
inferred closure kind and record its origin when the kind was not fixed by
external context, run the post-walk consistency check (`bug!` — `none` — when
the seeded set is not a superset of the set of variables owning path
entries, unless the visitor omitted parts), merge the delegate's maps into
the tables, and recompute the final upvar types. -/
def analyzeSeeded (fcx : Fcx) (closure_hir_id : Nat) (span : Nat) (def_id : Nat)
    (infer_kind : Bool) (capture_clause : CaptureClause) (freevars : List Nat)
    (events : List Event) (parts_omitted : Bool) (node_ty : Nat → RTy) : Option Fcx :=
  let seeded := seedUpvars fcx def_id span capture_clause freevars
  let fcx1 := seeded.1
  let freevar_list := seeded.2
  let tables1 :=
    if freevar_list.isEmpty then fcx1.tables
    else { fcx1.tables with upvar_list := alInsert fcx1.tables.upvar_list def_id freevar_list }
  let d0 : InferBorrowKind :=
    { closure_def_id := def_id
      current_closure_kind := .fn
      current_origin := Option.none
      adjust_upvar_captures := []
      span := span
      capture_clause := capture_clause
      upvar_captures := []
      fcx_upvar_capture_map := tables1.upvar_capture_map
      next_region := fcx1.next_region }
  match processEvents d0 events with
  | Option.none => Option.none
  | some d1 =>
    let tables2 :=
      if infer_kind then
        let ks := alInsert tables1.inferred_kinds closure_hir_id d1.current_closure_kind
        let t := { tables1 with inferred_kinds := ks }
        match d1.current_origin with
        | some origin =>
            let os := alInsert t.closure_kind_origins closure_hir_id origin
            { t with closure_kind_origins := os }
        | Option.none => t
      else tables1
    let seeded_paths : List Nat := ((alLookup tables2.upvar_list def_id).getD []).map
      (fun uid => uid.var_path)
    let captured_paths : List Nat := d1.upvar_captures.map (fun e => e.1.var_path)
    if !parts_omitted && !(captured_paths.all (fun v => seeded_paths.contains v)) then
      Option.none
    else
      let tables3 :=
        { tables2 with
          upvar_capture_map := extendMap tables2.upvar_capture_map d1.adjust_upvar_captures,
          upvar_captures := extendMap tables2.upvar_captures d1.upvar_captures }
      match final_upvar_tys def_id freevars node_ty tables3.upvar_capture_map with
      | Option.none => Option.none
      | some _ => some { tables := tables3, next_region := d1.next_region }

/-- `FnCtxt::analyze_closure`: skip entirely (trivial success) when the
closure's own type is the prior-error placeholder; `span_bug!` for a
non-closure type; otherwise run the seeded analysis, inferring the closure
kind only for a `ty::Closure` whose kind was not already fixed. -/
def analyze_closure (fcx : Fcx) (closure_hir_id : Nat) (span : Nat) (ty : ClosureTyKind)
    (kind_not_yet_fixed : Bool) (capture_clause : CaptureClause) (freevars : List Nat)
    (events : List Event) (parts_omitted : Bool) (node_ty : Nat → RTy) : Option Fcx :=
  match ty with
  | .error => some fcx
  | .other => Option.none
  | .closure def_id =>
      analyzeSeeded fcx closure_hir_id span def_id kind_not_yet_fixed capture_clause freevars
        events parts_omitted node_ty
  | .generator def_id =>
      analyzeSeeded fcx closure_hir_id span def_id false capture_clause freevars
        events parts_omitted node_ty

/-- The spec's borrow-kind lattice join (`Shared < UniqueShared < Exclusive`,
i.e. `ImmBorrow < UniqueImmBorrow < MutBorrow`). -/
def borrowKindSup : BorrowKind → BorrowKind → BorrowKind
  | .immBorrow, b => b
  | .uniqueImmBorrow, .mutBorrow => .mutBorrow
  | .uniqueImmBorrow, _ => .uniqueImmBorrow
  | .mutBorrow, _ => .mutBorrow

/-- The spec's invocation-class lattice join
(`CallShared < CallMut < CallOnce`, i.e. `Fn < FnMut < FnOnce`). -/
def closureKindSup : ClosureKind → ClosureKind → ClosureKind
  | .fn, b => b
  | .fnMut, .fnOnce => .fnOnce
  | .fnMut, _ => .fnMut
  | .fnOnce, _ => .fnOnce

/-- A note that does not mark an upvar or closure-environment dereference. -/
def plainNote : Note → Bool
  | .none => true
  | .index => true
  | .upvarRef _ => false
  | .closureEnv _ => false

/-- A location chain rooted at a local variable, a static item, or a
thread-local, with no upvar-related note anywhere along it (the memory
categorizer puts `upvarRef`/`closureEnv` notes only on the implicit
dereferences of captured variables, which cannot occur on such chains). -/
def plainCmt : Cmt → Bool
  | .localVar n _ _ => plainNote n
  | .staticItem n _ => plainNote n
  | .threadLocal n _ => plainNote n
  | .deref n _ base _ => plainNote n && plainCmt base
  | .interior n _ base _ => plainNote n && plainCmt base
  | .downcast n _ base _ => plainNote n && plainCmt base
  | .upvar _ _ _ => false
  | .rvalueNone _ _ => false
  | .rvalueSome _ _ _ => false

/-- The borrow kind recorded in a capture entry (`none` for `ByValue`),
abstracting over the opaque region. -/
def captureKind : UpvarCapture → Option BorrowKind
  | .byValue => Option.none
  | .byRef b => some b.kind

/-- Claim C1 scenario: a by-reference closure (hir id 100, def id 1)
capturing variable 7, whose body performs one shared read of field 10
(`x.a`) and one mutating use of field 11 (`x.b`). -/
def c1_run : Option Fcx :=
  analyze_closure ⟨⟨[], [], [], [], []⟩, 0⟩ 100 0 (.closure 1) true .byRef [7]
    [.borrow (.interior .none 0 (upvarRefCmt ⟨7, 1⟩ 0) (.interiorField 10)) .immBorrow,
     .mutate (.interior .none 0 (upvarRefCmt ⟨7, 1⟩ 0) (.interiorField 11))]
    false (fun v => .var v)

/-- The per-path capture table for variable 7 after the C1 scenario, viewed
up to the opaque regions. -/
def c1_table : Option (List (CapturePath × Option BorrowKind)) :=
  c1_run.bind (fun f =>
    (alLookup f.tables.upvar_captures ⟨7, 1⟩).map (fun pm =>
      pm.map (fun e => (e.1, captureKind e.2))))

/-- Claim C2 scenario: a by-reference closure (hir id 100, def id 1) seeding
captured variable 7, whose body walk reports no uses at all and no omission
(`parts_omitted = false`). -/
def c2_run : Option Fcx :=
  analyze_closure ⟨⟨[], [], [], [], []⟩, 0⟩ 100 0 (.closure 1) true .byRef [7] [] false
    (fun v => .var v)

theorem strengthenCapture_byRef (k0 : BorrowKind) (r : Nat) (k : BorrowKind) :
    strengthenCapture (.byRef ⟨k0, r⟩) k = .byRef ⟨borrowKindSup k0 k, r⟩ := by
  cases k0 <;> cases k <;> rfl

theorem foldl_strengthenCapture_byRef (ks : List BorrowKind) : ∀ (k0 : BorrowKind) (r : Nat),
    ks.foldl strengthenCapture (.byRef ⟨k0, r⟩) = .byRef ⟨ks.foldl borrowKindSup k0, r⟩ := by
  induction ks with
  | nil => intro k0 r; rfl
  | cons k ks ih =>
      intro k0 r
      rw [List.foldl_cons, List.foldl_cons, strengthenCapture_byRef]
      exact ih _ _

theorem foldl_borrowKindSup_perm {ks ks' : List BorrowKind} (h : ks.Perm ks') :
    ∀ k0 : BorrowKind, ks.foldl borrowKindSup k0 = ks'.foldl borrowKindSup k0 := by
  induction h with
  | nil => intro _; rfl
  | cons x _ ih => intro k0; rw [List.foldl_cons, List.foldl_cons]; exact ih _
  | swap x y l =>
      intro k0
      rw [List.foldl_cons, List.foldl_cons, List.foldl_cons, List.foldl_cons]
      have hc : borrowKindSup (borrowKindSup k0 y) x = borrowKindSup (borrowKindSup k0 x) y := by
        cases x <;> cases y <;> cases k0 <;> rfl
      rw [hc]
  | trans _ _ ih1 ih2 => intro k0; rw [ih1, ih2]

theorem foldl_closureKindSup_perm {cs cs' : List ClosureKind} (h : cs.Perm cs') :
    ∀ c0 : ClosureKind, cs.foldl closureKindSup c0 = cs'.foldl closureKindSup c0 := by
  induction h with
  | nil => intro _; rfl
  | cons x _ ih => intro c0; rw [List.foldl_cons, List.foldl_cons]; exact ih _
  | swap x y l =>
      intro c0
      rw [List.foldl_cons, List.foldl_cons, List.foldl_cons, List.foldl_cons]
      have hc : closureKindSup (closureKindSup c0 y) x = closureKindSup (closureKindSup c0 x) y := by
        cases x <;> cases y <;> cases c0 <;> rfl
      rw [hc]
  | trans _ _ ih1 ih2 => intro c0; rw [ih1, ih2]

theorem adjust_closure_kind_kind (s : InferBorrowKind) (c : ClosureKind) (sp nm : Nat) :
    (adjust_closure_kind s s.closure_def_id c sp nm).current_closure_kind
      = closureKindSup s.current_closure_kind c := by
  unfold adjust_closure_kind
  rw [if_neg (by simp)]
  cases h : s.current_closure_kind <;> cases c <;> simp [closureKindSup, h]

theorem foldl_adjust_closure_kind (cs : List ClosureKind) :
    ∀ (s : InferBorrowKind) (sp nm : Nat),
      (cs.foldl (fun t c => adjust_closure_kind t t.closure_def_id c sp nm)
          s).current_closure_kind
        = cs.foldl closureKindSup s.current_closure_kind := by
  induction cs with
  | nil => intro s sp nm; rfl
  | cons c cs ih =>
      intro s sp nm
      rw [List.foldl_cons, List.foldl_cons, ih, adjust_closure_kind_kind]

theorem alLookup_alInsert_self {α β : Type} [DecidableEq α] (m : List (α × β)) (k : α) (v : β) :
    alLookup (alInsert m k v) k = some v := by
  induction m with
  | nil => simp [alInsert, alLookup]
  | cons e rest ih =>
      by_cases h : e.1 = k
      · simp [alInsert, alLookup, h]
      · simp [alInsert, alLookup, h, ih]

theorem adjust_closure_kind_frame (s : InferBorrowKind) (cid : Nat) (c : ClosureKind)
    (sp nm : Nat) :
    (adjust_closure_kind s cid c sp nm).upvar_captures = s.upvar_captures
  ∧ (adjust_closure_kind s cid c sp nm).adjust_upvar_captures = s.adjust_upvar_captures
  ∧ (adjust_closure_kind s cid c sp nm).closure_def_id = s.closure_def_id := by
  unfold adjust_closure_kind
  split
  · exact ⟨rfl, rfl, rfl⟩
  · split <;> exact ⟨rfl, rfl, rfl⟩

theorem closureKindSup_fnOnce (c : ClosureKind) : closureKindSup c .fnOnce = .fnOnce := by
  cases c <;> rfl

theorem plainCmt_note {c : Cmt} (h : plainCmt c = true) : plainNote c.note = true := by
  cases c <;> simp [plainCmt, Cmt.note] at h ⊢ <;> try exact h.1
  all_goals exact h

theorem plain_resolve : ∀ (cmt : Cmt), plainCmt cmt = true →
    ∀ acc, capture_path_by_cmt_inner acc cmt = (Option.none, []) := by
  intro cmt
  induction cmt with
  | rvalueNone n sp => intro h acc; rfl
  | rvalueSome n sp inner ih => intro h; simp [plainCmt] at h
  | staticItem n sp => intro h acc; rfl
  | threadLocal n sp => intro h acc; rfl
  | upvar n sp uid => intro h; simp [plainCmt] at h
  | localVar n sp id => intro h acc; rfl
  | deref n sp base pk ih =>
      intro h acc
      simp [plainCmt] at h
      have hbn := plainCmt_note h.2
      cases hb : base.note with
      | none => simp [capture_path_by_cmt_inner, hb]; exact ih h.2 _
      | index => simp [capture_path_by_cmt_inner, hb]; exact ih h.2 _
      | upvarRef uid => rw [hb] at hbn; simp [plainNote] at hbn
      | closureEnv uid => rw [hb] at hbn; simp [plainNote] at hbn
  | interior n sp base ik ih =>
      intro h acc
      simp [plainCmt] at h
      cases ik with
      | interiorField name => simp [capture_path_by_cmt_inner]; exact ih h.2 _
      | interiorElement => simp [capture_path_by_cmt_inner]; exact ih h.2 _
  | downcast n sp base v ih =>
      intro h acc
      simp [plainCmt] at h
      simp [capture_path_by_cmt_inner]
      exact ih h.2 _

theorem plain_capture_path {cmt : Cmt} (h : plainCmt cmt = true) :
    capture_path_by_cmt cmt = (Option.none, []) := by
  unfold capture_path_by_cmt
  rw [plain_resolve cmt h []]
  rfl

theorem plain_init_capture_path {cmt : Cmt} (h : plainCmt cmt = true)
    (s : InferBorrowKind) : init_capture_path s cmt = s := by
  unfold init_capture_path
  rw [plain_capture_path h]

theorem plain_for_unique : ∀ (cmt : Cmt), plainCmt cmt = true →
    ∀ s : InferBorrowKind, adjust_upvar_borrow_kind_for_unique s cmt = some s := by
  intro cmt
  induction cmt with
  | rvalueNone n sp => intro h s; rfl
  | rvalueSome n sp inner ih => intro h s; rfl
  | staticItem n sp => intro h s; rfl
  | threadLocal n sp => intro h s; rfl
  | upvar n sp uid => intro h s; rfl
  | localVar n sp id => intro h s; rfl
  | deref n sp base pk ih =>
      intro h s
      simp [plainCmt] at h
      cases pk with
      | uniquePtr => exact ih h.2 s
      | rawPtr => rfl
      | borrowedPtr =>
          have : try_adjust_upvar_deref s (.deref n sp base .borrowedPtr) .uniqueImmBorrow
              = some (s, false) := by
            unfold try_adjust_upvar_deref
            cases hn : n with
            | none => simp [Cmt.note]
            | index => simp [Cmt.note]
            | upvarRef uid => rw [hn] at h; simp [plainNote] at h
            | closureEnv uid => rw [hn] at h; simp [plainNote] at h
          simp [adjust_upvar_borrow_kind_for_unique, this]
          exact ih h.2 s
  | interior n sp base ik ih =>
      intro h s
      simp [plainCmt] at h
      exact ih h.2 s
  | downcast n sp base v ih =>
      intro h s
      simp [plainCmt] at h
      exact ih h.2 s

theorem plain_for_mut : ∀ (cmt : Cmt), plainCmt cmt = true →
    ∀ s : InferBorrowKind, adjust_upvar_borrow_kind_for_mut s cmt = some s := by
  intro cmt
  induction cmt with
  | rvalueNone n sp => intro h s; rfl
  | rvalueSome n sp inner ih => intro h s; rfl
  | staticItem n sp => intro h s; rfl
  | threadLocal n sp => intro h s; rfl
  | upvar n sp uid => intro h s; rfl
  | localVar n sp id => intro h s; rfl
  | deref n sp base pk ih =>
      intro h s
      simp [plainCmt] at h
      cases pk with
      | uniquePtr => exact ih h.2 s
      | rawPtr => rfl
      | borrowedPtr =>
          have : try_adjust_upvar_deref s (.deref n sp base .borrowedPtr) .mutBorrow
              = some (s, false) := by
            unfold try_adjust_upvar_deref
            cases hn : n with
            | none => simp [Cmt.note]
            | index => simp [Cmt.note]
            | upvarRef uid => rw [hn] at h; simp [plainNote] at h
            | closureEnv uid => rw [hn] at h; simp [plainNote] at h
          simp [adjust_upvar_borrow_kind_for_mut, this]
          exact plain_for_unique base h.2 s
  | interior n sp base ik ih =>
      intro h s
      simp [plainCmt] at h
      exact ih h.2 s
  | downcast n sp base v ih =>
      intro h s
      simp [plainCmt] at h
      exact ih h.2 s

theorem plain_guarantor : ∀ (cmt : Cmt), plainCmt cmt = true →
    plainCmt cmt.guarantor = true := by
  intro cmt
  induction cmt with
  | rvalueNone n sp => intro h; exact h
  | rvalueSome n sp inner ih => intro h; exact h
  | staticItem n sp => intro h; exact h
  | threadLocal n sp => intro h; exact h
  | upvar n sp uid => intro h; exact h
  | localVar n sp id => intro h; exact h
  | deref n sp base pk ih =>
      intro h
      cases pk with
      | uniquePtr =>
          simp [plainCmt] at h
          exact ih h.2
      | rawPtr => exact h
      | borrowedPtr => exact h
  | interior n sp base ik ih =>
      intro h
      simp [plainCmt] at h
      exact ih h.2
  | downcast n sp base v ih =>
      intro h
      simp [plainCmt] at h
      exact ih h.2

theorem plain_for_consume {cmt : Cmt} (h : plainCmt cmt = true) (s : InferBorrowKind)
    (mode : ConsumeMode) : adjust_upvar_borrow_kind_for_consume s cmt mode = some s := by
  cases mode with
  | copy => rfl
  | move =>
      have hg := plain_guarantor cmt h
      unfold adjust_upvar_borrow_kind_for_consume
      cases hgc : cmt.guarantor with
      | deref gnote gsp gbase pk =>
          rw [hgc] at hg
          simp [plainCmt] at hg
          cases pk with
          | borrowedPtr =>
              cases hn : gnote with
              | none => simp
              | index => simp
              | upvarRef uid => rw [hn] at hg; simp [plainNote] at hg
              | closureEnv uid => rw [hn] at hg; simp [plainNote] at hg
          | uniquePtr => simp
          | rawPtr => simp
      | rvalueNone n sp => simp
      | rvalueSome n sp inner => simp
      | staticItem n sp => simp
      | threadLocal n sp => simp
      | upvar n sp uid => simp
      | localVar n sp id => simp
      | interior n sp base ik => simp
      | downcast n sp base v => simp

/-- Claim C9: if a closure expression's own type already carries a
prior-error placeholder, `analyze_closure` returns immediately with trivial
success — the function context (all capture and invocation-class tables, and
the region counter) is returned unchanged and no fatal signal (`none`) is
raised, for every possible input. -/
theorem c9_error_closure_skipped (fcx : Fcx) (closure_hir_id sp : Nat)
    (kind_not_yet_fixed : Bool) (cc : CaptureClause) (freevars : List Nat)
    (events : List Event) (parts_omitted : Bool) (node_ty : Nat → RTy) :
    analyze_closure fcx closure_hir_id sp .error kind_not_yet_fixed cc freevars events
      parts_omitted node_ty = some fcx := rfl

/-- Claim C10: in both the mutating and the unique-borrow escalation walks,
reaching a dereference of a raw (`unsafe`) pointer terminates the walk with
the state unchanged — no capture mode, path-table entry, or invocation class
changes — including when the raw-pointer dereference is reached through an
interior or downcast projection. -/
theorem c10_raw_pointer_deref_frame (s : InferBorrowKind) (n : Note) (sp sp2 nm : Nat)
    (base : Cmt) :
    adjust_upvar_borrow_kind_for_mut s (.deref n sp base .rawPtr) = some s
  ∧ adjust_upvar_borrow_kind_for_unique s (.deref n sp base .rawPtr) = some s
  ∧ adjust_upvar_borrow_kind_for_mut s
      (.interior .none sp2 (.deref n sp base .rawPtr) (.interiorField nm)) = some s
  ∧ adjust_upvar_borrow_kind_for_unique s
      (.downcast .none sp2 (.deref n sp base .rawPtr) nm) = some s :=
  ⟨rfl, rfl, rfl, rfl⟩

/-- Claim C5: an indexing projection discards every path component
accumulated so far and the walk continues from the index's base with an empty
accumulator — both for an indexed-element projection and for a dereference
whose base carries the index note; in particular the chain
field(a) → index → field(c) → dereference(marked) resolves to the path
[Field(c)] only. -/
theorem c5_index_reset (acc : List CapturePathComponent) (n nd : Note) (sp spd : Nat)
    (base based : Cmt) (pk : PtrKind) (uid : UpvarId)
    (hidx : based.note = .index) :
    capture_path_by_cmt_inner acc (.interior n sp base .interiorElement)
      = capture_path_by_cmt_inner [] base
  ∧ capture_path_by_cmt_inner acc (.deref nd spd based pk)
      = capture_path_by_cmt_inner [] based
  ∧ capture_path_by_cmt
      (.interior .none sp
        (.interior .none sp
          (.interior .none sp (upvarRefCmt uid sp) (.interiorField 12)) .interiorElement)
        (.interiorField 10))
      = (some uid, [.field 12]) := by
  refine ⟨rfl, ?_, ?_⟩
  · conv_lhs => rw [capture_path_by_cmt_inner]
    rw [hidx]
  · simp [capture_path_by_cmt, capture_path_by_cmt_inner, upvarRefCmt, Cmt.note]

/-- Claim C5 witness: the general index-reset equations applied at a concrete
chain whose dereference base carries the index note. -/
theorem c5_index_reset_witness :
    capture_path_by_cmt_inner [.field 9] (.interior .none 0 (.localVar .none 0 5)
        .interiorElement)
      = capture_path_by_cmt_inner [] (.localVar .none 0 5)
  ∧ capture_path_by_cmt_inner [.field 9] (.deref .none 0 (.deref .index 0
        (.localVar .none 0 5) .borrowedPtr) .borrowedPtr)
      = capture_path_by_cmt_inner [] (.deref .index 0 (.localVar .none 0 5) .borrowedPtr)
  ∧ capture_path_by_cmt
      (.interior .none 0
        (.interior .none 0
          (.interior .none 0 (upvarRefCmt ⟨7, 1⟩ 0) (.interiorField 12)) .interiorElement)
        (.interiorField 10))
      = (some ⟨7, 1⟩, [.field 12]) :=
  c5_index_reset [.field 9] .none .none 0 0 (.localVar .none 0 5)
    (.deref .index 0 (.localVar .none 0 5) .borrowedPtr) .borrowedPtr ⟨7, 1⟩ rfl

/-- Claim C6: a walk that reaches a dereference annotated as the captured
variable's own reference (or the closure-environment reference) terminates
successfully, yielding that variable and the accumulated components, and
`capture_path_by_cmt` reverses them into root-to-leaf order; in particular
the chain field(a) → field(b) → dereference(marked) for variable x resolves
to x with path [Field(a), Field(b)], not [Field(b), Field(a)]. -/
theorem c6_path_reconstruction (acc : List CapturePathComponent) (uid : UpvarId)
    (nd : Note) (spd sp : Nat) (pk : PtrKind) (base : Cmt)
    (h : base.note = .upvarRef uid ∨ base.note = .closureEnv uid) :
    capture_path_by_cmt_inner acc (.deref nd spd base pk) = (some uid, acc)
  ∧ capture_path_by_cmt
      (.interior .none sp (.interior .none sp (upvarRefCmt uid sp) (.interiorField 10))
        (.interiorField 11))
      = (some uid, [.field 10, .field 11]) := by
  constructor
  · conv_lhs => rw [capture_path_by_cmt_inner]
    rcases h with h | h <;> rw [h]
  · simp [capture_path_by_cmt, capture_path_by_cmt_inner, upvarRefCmt, Cmt.note]

/-- Claim C6 witness: the termination equation applied at a marked
dereference with a non-empty accumulator, plus the concrete two-field chain. -/
theorem c6_path_reconstruction_witness :
    capture_path_by_cmt_inner [.field 11, .field 10]
      (.deref .none 0 (.deref (.upvarRef ⟨7, 1⟩) 0 (.localVar .none 0 5) .borrowedPtr)
        .borrowedPtr)
      = (some ⟨7, 1⟩, [.field 11, .field 10])
  ∧ capture_path_by_cmt
      (.interior .none 0 (.interior .none 0 (upvarRefCmt ⟨7, 1⟩ 0) (.interiorField 10))
        (.interiorField 11))
      = (some ⟨7, 1⟩, [.field 10, .field 11]) :=
  c6_path_reconstruction [.field 11, .field 10] ⟨7, 1⟩ .none 0 0 .borrowedPtr
    (.deref (.upvarRef ⟨7, 1⟩) 0 (.localVar .none 0 5) .borrowedPtr) (Or.inl rfl)

/-- Claim C1 counterexample: in the split-paths scenario the per-path table
does not contain exactly the two claimed entries — it has three entries, and
the entry at [Field(b)] is the Shared seed, not Exclusive (the mutation is
recorded on the empty path at the marked dereference instead). -/
theorem c1_counterexample :
    c1_table.map List.length = some 3
  ∧ c1_table.bind (fun pm => alLookup pm [.field 11]) = some (some .immBorrow) := by
  exact ⟨by decide, by decide⟩

/-- Claim C1 amended: in the split-paths scenario the per-path table for x
contains exactly the three entries [Field(a)] ↦ ByReference{Shared},
[Field(b)] ↦ ByReference{Shared} and [] ↦ ByReference{Exclusive} (the
mutating use escalates the path at which the variable's marked dereference
sits — the root path — while [Field(b)] keeps its initialization seed), and
the closure's invocation class is CallMut. -/
theorem c1_split_paths :
    c1_table = some [([.field 10], some .immBorrow), ([.field 11], some .immBorrow),
      ([], some .mutBorrow)]
  ∧ c1_run.map (fun f => alLookup f.tables.inferred_kinds 100) = some (some .fnMut) := by
  exact ⟨by decide, by decide⟩

/-- Claim C2 evaluated at the failing input: variable 7 is seeded (it is in
the closure's `upvar_list`) and ends the walk with zero path entries while no
omission was reported, yet the analysis succeeds (`some`) instead of raising
the fatal internal-defect signal — the consistency check at the end of
`analyze_closure` tests that the seeded variables are a superset of the
variables owning path entries, which cannot detect a seeded variable with an
empty path table. -/
theorem c2_missing_capture_not_fatal :
    c2_run.map (fun f =>
        (alLookup f.tables.upvar_list 1, alLookup f.tables.upvar_captures ⟨7, 1⟩))
      = some (some [⟨7, 1⟩], Option.none) := by
  decide

/-- Claim C3: escalation is idempotent and order-independent.  After a
`ByRef` seed with kind k0, any finite sequence of borrow-kind escalation
steps (the step shared by both matches of `adjust_upvar_borrow_kind`) ends at
the lattice supremum of the seed and all requested kinds, with the seeded
region untouched, and permuting the requests does not change the result.
Likewise, folding `adjust_closure_kind` requests for the closure under
inference over a state starting at the lattice bottom `Fn` ends at the
supremum of all requested classes, and that supremum is
permutation-invariant. -/
theorem c3_escalation_lattice (k0 : BorrowKind) (r : Nat) (ks ks' : List BorrowKind)
    (hk : ks.Perm ks') (s : InferBorrowKind) (hs : s.current_closure_kind = .fn)
    (cs cs' : List ClosureKind) (hc : cs.Perm cs') (sp nm : Nat) :
    ks.foldl strengthenCapture (.byRef ⟨k0, r⟩) = .byRef ⟨ks.foldl borrowKindSup k0, r⟩
  ∧ ks.foldl strengthenCapture (.byRef ⟨k0, r⟩) = ks'.foldl strengthenCapture (.byRef ⟨k0, r⟩)
  ∧ (cs.foldl (fun t c => adjust_closure_kind t t.closure_def_id c sp nm)
        s).current_closure_kind
      = cs.foldl closureKindSup .fn
  ∧ cs.foldl closureKindSup .fn = cs'.foldl closureKindSup .fn := by
  refine ⟨foldl_strengthenCapture_byRef ks k0 r, ?_, ?_, foldl_closureKindSup_perm hc .fn⟩
  · rw [foldl_strengthenCapture_byRef, foldl_strengthenCapture_byRef,
      foldl_borrowKindSup_perm hk]
  · rw [foldl_adjust_closure_kind, hs]

/-- Claim C3 witness: the lattice-supremum and permutation properties at a
concrete seed, concrete permuted request lists and a concrete bottom state. -/
theorem c3_escalation_lattice_witness :
    [BorrowKind.mutBorrow, BorrowKind.uniqueImmBorrow].foldl strengthenCapture
        (.byRef ⟨.immBorrow, 4⟩)
      = .byRef ⟨[BorrowKind.mutBorrow,
          BorrowKind.uniqueImmBorrow].foldl borrowKindSup .immBorrow, 4⟩
  ∧ [BorrowKind.mutBorrow, BorrowKind.uniqueImmBorrow].foldl strengthenCapture
        (.byRef ⟨.immBorrow, 4⟩)
      = [BorrowKind.uniqueImmBorrow, BorrowKind.mutBorrow].foldl strengthenCapture
        (.byRef ⟨.immBorrow, 4⟩)
  ∧ ([ClosureKind.fnOnce, ClosureKind.fnMut].foldl
        (fun t c => adjust_closure_kind t t.closure_def_id c 0 7)
        ⟨1, .fn, Option.none, [], 0, .byRef, [], [], 0⟩).current_closure_kind
      = [ClosureKind.fnOnce, ClosureKind.fnMut].foldl closureKindSup .fn
  ∧ [ClosureKind.fnOnce, ClosureKind.fnMut].foldl closureKindSup .fn
      = [ClosureKind.fnMut, ClosureKind.fnOnce].foldl closureKindSup .fn :=
  c3_escalation_lattice .immBorrow 4 [.mutBorrow, .uniqueImmBorrow]
    [.uniqueImmBorrow, .mutBorrow]
    (List.Perm.swap BorrowKind.uniqueImmBorrow BorrowKind.mutBorrow [])
    (⟨1, .fn, Option.none, [], 0, .byRef, [], [], 0⟩ : InferBorrowKind) rfl
    [.fnOnce, .fnMut] [.fnMut, .fnOnce]
    (List.Perm.swap ClosureKind.fnMut ClosureKind.fnOnce []) 0 7

/-- Claim C8: at finalize time a captured variable's final field type is the
variable's own static type when the whole-variable capture is `ByValue`, and
otherwise a reference over the recorded region whose mutability is read-only
for `Shared` and `UniqueShared` and read-write for `Exclusive`. -/
theorem c8_final_field_types (cid v r : Nat) (node_ty : Nat → RTy)
    (m : List (UpvarId × UpvarCapture)) :
    (alLookup m ⟨v, cid⟩ = some .byValue →
      final_upvar_tys cid [v] node_ty m = some [node_ty v])
  ∧ (∀ k : BorrowKind, alLookup m ⟨v, cid⟩ = some (.byRef ⟨k, r⟩) →
      final_upvar_tys cid [v] node_ty m = some [.ref r (to_mutbl_lossy k) (node_ty v)])
  ∧ to_mutbl_lossy .immBorrow = .immutable
  ∧ to_mutbl_lossy .uniqueImmBorrow = .immutable
  ∧ to_mutbl_lossy .mutBorrow = .mutable := by
  refine ⟨?_, ?_, rfl, rfl, rfl⟩
  · intro h
    simp [final_upvar_tys, h]
  · intro k h
    simp [final_upvar_tys, h]

/-- Claim C8 witness: the two field-type equations at a concrete capture
map holding a `ByValue` entry and an `Exclusive` by-ref entry. -/
theorem c8_final_field_types_witness :
    (alLookup [((⟨7, 1⟩ : UpvarId), UpvarCapture.byValue)] ⟨7, 1⟩ = some .byValue →
      final_upvar_tys 1 [7] RTy.var [((⟨7, 1⟩ : UpvarId), UpvarCapture.byValue)]
        = some [RTy.var 7])
  ∧ alLookup [((⟨8, 1⟩ : UpvarId), UpvarCapture.byRef ⟨.mutBorrow, 5⟩)] ⟨8, 1⟩
      = some (.byRef ⟨.mutBorrow, 5⟩)
  ∧ final_upvar_tys 1 [8] RTy.var [((⟨8, 1⟩ : UpvarId), UpvarCapture.byRef ⟨.mutBorrow, 5⟩)]
      = some [.ref 5 (to_mutbl_lossy .mutBorrow) (RTy.var 8)] :=
  ⟨(c8_final_field_types 1 7 5 RTy.var
      ([(⟨7, 1⟩, .byValue)] : List (UpvarId × UpvarCapture))).1, rfl,
    (c8_final_field_types 1 8 5 RTy.var
      ([(⟨8, 1⟩, .byRef ⟨.mutBorrow, 5⟩)] : List (UpvarId × UpvarCapture))).2.1
      .mutBorrow rfl⟩

/-- Claim C4: a consuming (move) use whose guarantor is a borrowed-pointer
dereference annotated as the captured variable's own reference sets the
resolved (variable, path) entry to `ByValue` (as well as the whole-variable
capture) and escalates the closure's invocation class to `FnOnce`
(`CallOnce`), whatever class it had before — including `Fn` (`CallShared`);
a copy-mode use never triggers any change. -/
theorem c4_consume_through_ref (s : InferBorrowKind) (uid : UpvarId) (path : CapturePath)
    (pm : List (CapturePath × UpvarCapture)) (cmt : Cmt) (gsp : Nat) (gbase : Cmt)
    (h1 : cmt.guarantor = .deref (.upvarRef uid) gsp gbase .borrowedPtr)
    (h2 : capture_path_by_cmt cmt = (some uid, path))
    (h3 : alLookup s.upvar_captures uid = some pm)
    (h4 : uid.closure_expr_id = s.closure_def_id) :
    (∃ s', adjust_upvar_borrow_kind_for_consume s cmt .move = some s'
      ∧ (alLookup s'.upvar_captures uid).map (fun pm2 => alLookup pm2 path)
          = some (some .byValue)
      ∧ s'.current_closure_kind = .fnOnce
      ∧ alLookup s'.adjust_upvar_captures uid = some .byValue)
  ∧ (∀ (t : InferBorrowKind) (c : Cmt),
      adjust_upvar_borrow_kind_for_consume t c .copy = some t) := by
  constructor
  · have hf := adjust_closure_kind_frame s uid.closure_expr_id .fnOnce gsp
      (var_name uid.var_path)
    have hk : (adjust_closure_kind s uid.closure_expr_id .fnOnce gsp
        (var_name uid.var_path)).current_closure_kind = .fnOnce := by
      rw [h4, adjust_closure_kind_kind, closureKindSup_fnOnce]
    unfold adjust_upvar_borrow_kind_for_consume
    rw [h1, h2]
    simp only [if_pos rfl]
    rw [hf.1, h3]
    refine ⟨_, rfl, ?_, ?_, ?_⟩
    · simp [alLookup_alInsert_self]
    · exact hk
    · simp [alLookup_alInsert_self]
  · intro t c; rfl

/-- Claim C4 witness: the move of field 11 of captured variable 7 through its
marked dereference, starting from invocation class `Fn` (`CallShared`). -/
theorem c4_consume_through_ref_witness :
    (∃ s', adjust_upvar_borrow_kind_for_consume
        (⟨1, .fn, Option.none, [], 0, .byRef, [(⟨7, 1⟩, [])],
          [(⟨7, 1⟩, .byRef ⟨.immBorrow, 0⟩)], 1⟩ : InferBorrowKind)
        (.interior .none 0 (upvarRefCmt ⟨7, 1⟩ 0) (.interiorField 11)) .move = some s'
      ∧ (alLookup s'.upvar_captures ⟨7, 1⟩).map (fun pm2 => alLookup pm2 [.field 11])
          = some (some .byValue)
      ∧ s'.current_closure_kind = .fnOnce
      ∧ alLookup s'.adjust_upvar_captures ⟨7, 1⟩ = some .byValue)
  ∧ (∀ (t : InferBorrowKind) (c : Cmt),
      adjust_upvar_borrow_kind_for_consume t c .copy = some t) :=
  c4_consume_through_ref
    (⟨1, .fn, Option.none, [], 0, .byRef, [(⟨7, 1⟩, [])],
      [(⟨7, 1⟩, .byRef ⟨.immBorrow, 0⟩)], 1⟩ : InferBorrowKind)
    ⟨7, 1⟩ [.field 11] [] (.interior .none 0 (upvarRefCmt ⟨7, 1⟩ 0) (.interiorField 11))
    0 (.deref (.closureEnv ⟨7, 1⟩) 0 (.upvar .none 0 ⟨7, 1⟩) .borrowedPtr)
    rfl rfl rfl rfl

/-- Claim C7: a location chain rooted at a local variable, a static item, or
a thread-local (and, as such chains are, free of upvar notes) resolves to no
captured variable and the empty path, and every visitor callback processing a
use of such a chain — consume in either mode, pattern consume, borrows of all
three kinds, and mutate — leaves the entire delegate state unchanged: no
path-table entry, capture mode, or invocation class changes. -/
theorem c7_non_capture_frame (s : InferBorrowKind) (cmt : Cmt) (h : plainCmt cmt = true) :
    capture_path_by_cmt cmt = (Option.none, [])
  ∧ processEvent s (.consume cmt .copy) = some s
  ∧ processEvent s (.consume cmt .move) = some s
  ∧ processEvent s (.consumePat cmt .copy) = some s
  ∧ processEvent s (.consumePat cmt .move) = some s
  ∧ processEvent s (.borrow cmt .immBorrow) = some s
  ∧ processEvent s (.borrow cmt .uniqueImmBorrow) = some s
  ∧ processEvent s (.borrow cmt .mutBorrow) = some s
  ∧ processEvent s (.mutate cmt) = some s := by
  have hi := plain_init_capture_path h s
  refine ⟨plain_capture_path h, ?_, ?_, ?_, ?_, ?_, ?_, ?_, ?_⟩ <;>
    simp [processEvent, hi, plain_for_consume h, plain_for_mut cmt h,
      plain_for_unique cmt h]

/-- Claim C7 witness: all nine frame equations at a concrete state for a
chain that dereferences a borrowed pointer rooted at a local variable. -/
theorem c7_non_capture_frame_witness :
    capture_path_by_cmt (.deref .none 0 (.localVar .none 0 5) .borrowedPtr)
      = (Option.none, [])
  ∧ processEvent (⟨1, .fn, Option.none, [], 0, .byRef, [], [], 0⟩ : InferBorrowKind)
      (.consume (.deref .none 0 (.localVar .none 0 5) .borrowedPtr) .copy)
      = some ⟨1, .fn, Option.none, [], 0, .byRef, [], [], 0⟩
  ∧ processEvent (⟨1, .fn, Option.none, [], 0, .byRef, [], [], 0⟩ : InferBorrowKind)
      (.consume (.deref .none 0 (.localVar .none 0 5) .borrowedPtr) .move)
      = some ⟨1, .fn, Option.none, [], 0, .byRef, [], [], 0⟩
  ∧ processEvent (⟨1, .fn, Option.none, [], 0, .byRef, [], [], 0⟩ : InferBorrowKind)
      (.consumePat (.deref .none 0 (.localVar .none 0 5) .borrowedPtr) .copy)
      = some ⟨1, .fn, Option.none, [], 0, .byRef, [], [], 0⟩
  ∧ processEvent (⟨1, .fn, Option.none, [], 0, .byRef, [], [], 0⟩ : InferBorrowKind)
      (.consumePat (.deref .none 0 (.localVar .none 0 5) .borrowedPtr) .move)
      = some ⟨1, .fn, Option.none, [], 0, .byRef, [], [], 0⟩
  ∧ processEvent (⟨1, .fn, Option.none, [], 0, .byRef, [], [], 0⟩ : InferBorrowKind)
      (.borrow (.deref .none 0 (.localVar .none 0 5) .borrowedPtr) .immBorrow)
      = some ⟨1, .fn, Option.none, [], 0, .byRef, [], [], 0⟩
  ∧ processEvent (⟨1, .fn, Option.none, [], 0, .byRef, [], [], 0⟩ : InferBorrowKind)
      (.borrow (.deref .none 0 (.localVar .none 0 5) .borrowedPtr) .uniqueImmBorrow)
      = some ⟨1, .fn, Option.none, [], 0, .byRef, [], [], 0⟩
  ∧ processEvent (⟨1, .fn, Option.none, [], 0, .byRef, [], [], 0⟩ : InferBorrowKind)
      (.borrow (.deref .none 0 (.localVar .none 0 5) .borrowedPtr) .mutBorrow)
      = some ⟨1, .fn, Option.none, [], 0, .byRef, [], [], 0⟩
  ∧ processEvent (⟨1, .fn, Option.none, [], 0, .byRef, [], [], 0⟩ : InferBorrowKind)
      (.mutate (.deref .none 0 (.localVar .none 0 5) .borrowedPtr))
      = some ⟨1, .fn, Option.none, [], 0, .byRef, [], [], 0⟩ :=
  c7_non_capture_frame (⟨1, .fn, Option.none, [], 0, .byRef, [], [], 0⟩ : InferBorrowKind)
    (.deref .none 0 (.localVar .none 0 5) .borrowedPtr) rfl
